import Mathlib

/-!
# Verification of the snack credential & tool-access hub

Shallow embedding of the hub's components (symmetric credential cipher,
server registry, credential store, OAuth flow controller, tool-access hub,
conversation context cache) and proofs of the spec's testable properties.

Conventions of the embedding:
* JavaScript objects used as string-keyed maps are association lists with
  JS semantics: assignment updates an existing key in place (preserving
  enumeration order) or appends a fresh one; `delete` removes the entry.
* Machine time (`Date.now()`) is an explicit `now : Nat` parameter
  (milliseconds).
* `fetch` responses, decryption of stored blobs and JSON parsing are
  explicit oracle parameters where their internals do not matter.
* JS truthiness of strings/numbers is modelled by `≠ ""` / `≠ 0`.
-/

namespace Snack

/-! ## Symmetric credential cipher

The file `src/utils/crypto.ts` wraps `CryptoJS.AES.encrypt/decrypt`
(passphrase mode). The library itself is external to the repository; the
spec treats it as a collaborator assumed to provide symmetric
encrypt/decrypt given a passphrase, with a fresh random salt drawn per
encryption call (the OpenSSL-compatible format CryptoJS emits prefixes
the ciphertext with the 8-byte salt). We model plaintexts, passphrases
and ciphertexts as byte lists and the cipher as a salt-keyed stream
cipher, the per-call salt being an explicit randomness parameter. -/

/-- Byte strings, as lists of naturals. -/
abbrev Bytes := List Nat

/-- Modelled from the spec: the key-derivation mix of passphrase and salt
used by the external cipher (CryptoJS `EVP_BytesToKey`); any fixed
deterministic function of passphrase, salt and position serves the model. -/
def keystreamByte (pass salt : Bytes) (i : Nat) : Nat :=
  (pass.foldl (fun a b => a * 131 + b + 7) 17 +
    salt.foldl (fun a b => a * 137 + b + 11) 29 + i * 251) % 256

/-- Keystream of length `n` derived from passphrase and salt. -/
def keystream (pass salt : Bytes) (n : Nat) : Bytes :=
  (List.range n).map (keystreamByte pass salt)

/-- Modelled from the spec: the external symmetric cipher core.
Ciphertext is the salt followed by the plaintext XORed with the
passphrase/salt-derived keystream, mirroring the salt-prefixed
OpenSSL format CryptoJS produces. -/
def encryptRaw (text pass salt : Bytes) : Bytes :=
  salt ++ text.zipWith Nat.xor (keystream pass salt text.length)

/-- Modelled from the spec: inverse of `encryptRaw`; recovers the 8-byte
salt from the ciphertext prefix and XORs the body with the same
keystream. -/
def decryptRaw (ct pass : Bytes) : Bytes :=
  let salt := ct.take 8
  let body := ct.drop 8
  body.zipWith Nat.xor (keystream pass salt body.length)

/-- Environment record carrying the encryption passphrase
(`env.ENCRYPTION_KEY` in `src/utils/crypto.ts`); the empty list models a
missing/empty key (JS falsy). -/
structure Env where
  ENCRYPTION_KEY : Bytes
  deriving DecidableEq

/-- Embedding of `encrypt` from `src/utils/crypto.ts`: throws when the
key is absent, otherwise defers to the cipher. The per-call random salt
is an explicit parameter. -/
def encrypt (text : Bytes) (env : Env) (salt : Bytes) : Except String Bytes :=
  if env.ENCRYPTION_KEY = [] then
    .error "ENCRYPTION_KEY is required"
  else
    .ok (encryptRaw text env.ENCRYPTION_KEY salt)

/-- Embedding of `decrypt` from `src/utils/crypto.ts`: throws when the
key is absent, otherwise defers to the cipher. -/
def decrypt (encryptedText : Bytes) (env : Env) : Except String Bytes :=
  if env.ENCRYPTION_KEY = [] then
    .error "ENCRYPTION_KEY is required"
  else
    .ok (decryptRaw encryptedText env.ENCRYPTION_KEY)

/-! ## JS object-as-map primitives

Association lists with JavaScript object semantics. -/

/-- Lowercasing as JS `String.prototype.toLowerCase()` performs it on the
ASCII names this system uses: each character mapped to its lowercase
form. -/
def jsToLower (s : String) : String := String.mk (s.data.map Char.toLower)

/-- Property access `obj[k]`: value of the first entry with key `k`. -/
def jsGet {κ α : Type} [DecidableEq κ] : List (κ × α) → κ → Option α
  | [], _ => none
  | p :: r, k => if p.1 = k then some p.2 else jsGet r k

/-- Assignment `obj[k] = v`: updates an existing key in place (keeping
enumeration order) or appends a fresh entry. -/
def jsSet {κ α : Type} [DecidableEq κ] : List (κ × α) → κ → α → List (κ × α)
  | [], k, v => [(k, v)]
  | p :: r, k, v => if p.1 = k then (k, v) :: r else p :: jsSet r k v

/-- Deletion `delete obj[k]`. -/
def jsDelete {κ α : Type} [DecidableEq κ] (r : List (κ × α)) (k : κ) :
    List (κ × α) :=
  r.filter (fun p => decide (p.1 ≠ k))

/-! ## Server registry (`src/utils/storage.ts`, `api/index.ts`)

The registry is the JSON document stored under `servers:config`,
a map from server name to URL. -/

/-- The in-memory registry document. -/
abbrev Registry := List (String × String)

/-- Embedding of `saveServer` from the storage module: stores the URL
under the lowercased server name (the URL itself is kept as given). -/
def saveServer (serverName serverUrl : String) (servers : Registry) : Registry :=
  jsSet servers (jsToLower serverName) serverUrl

/-- Embedding of `removeServer` from the storage module: deletes the
entry under the lowercased server name. -/
def removeServer (serverName : String) (servers : Registry) : Registry :=
  jsDelete servers (jsToLower serverName)

namespace ServerConfigManager

/-- Embedding of `ServerConfigManager.addServer` from `api/index.ts`:
normalizes both the server name and the URL to lowercase. -/
def addServer (serverName serverUrl : String) (servers : Registry) : Registry :=
  jsSet servers (jsToLower serverName) (jsToLower serverUrl)

/-- Embedding of `ServerConfigManager.removeServer` from `api/index.ts`:
deletes the entry under the name exactly as given (no lowercasing). -/
def removeServer (serverName : String) (servers : Registry) : Registry :=
  jsDelete servers serverName

end ServerConfigManager

/-! ## Credential store: per-user API keys (`src/utils/storage.ts`) -/

/-- A value stored under `auth:{userId}:{serverName}`: either the JSON
record `{apiKey: ...}` written by `storeUserApiKey` (whose `apiKey`
field may be null), or a legacy raw encrypted key that fails JSON
parsing. -/
inductive StoredAuth where
  | jsonRec (apiKey : Option String)
  | legacy (raw : String)
  deriving DecidableEq

/-- The `auth:` keyspace, keyed by (userId, serverName). -/
abbrev AuthStore := List ((String × String) × StoredAuth)

/-- Embedding of `getUserApiKey` from `src/utils/storage.ts`: an absent
or empty KV value yields null; a JSON value yields its `apiKey` field; a
non-JSON value is returned as a legacy raw key. -/
def getUserApiKey (kv : AuthStore) (userId serviceName : String) : Option String :=
  match jsGet kv (userId, serviceName) with
  | none => none
  | some (.jsonRec apiKey) => apiKey
  | some (.legacy raw) => if raw = "" then none else some raw

/-- Embedding of `findUserApiKey` from `src/utils/auth.ts` /
`src/mcp.ts`: tries the server name as given, then its lowercased form,
and decrypts the first truthy hit with the supplied encryption key. The
decryption function is passed explicitly. -/
def findUserApiKey (dec : String → String → String) (kv : AuthStore)
    (userId serverName encryptionKey : String) : Option String :=
  [serverName, jsToLower serverName].findSome? (fun name =>
    match getUserApiKey kv userId name with
    | some s => if s = "" then none else some (dec s encryptionKey)
    | none => none)

/-! ## Tool-access hub (`src/mcp.ts`, `src/utils/mcp.ts`) -/

/-- Modelled from the spec: `OAUTH_SERVICES` is exported by
`configs/oauth.js`, which is absent from the sources; per the spec's
provider table it lists the configured OAuth-capable services, the keys
of `OAUTH_CONFIGS` in `configs/oauth.ts`. -/
def OAUTH_SERVICES : List String := ["sentry", "github"]

/-- One per-server connection descriptor built by `buildServerConfigs`:
a URL plus an optional `Authorization` header value. -/
structure MCPServerConfig where
  url : String
  authHeader : Option String
  deriving DecidableEq

/-- Embedding of `McpServerHub.buildServerConfigs` from `src/mcp.ts`:
for every registered server resolve a credential (OAuth token first for
OAuth-capable services, then the API key via `findUserApiKey`) and
attach a `Token`/`Bearer` authorization header when one is found. The
OAuth token resolver and decryption function are passed explicitly. -/
def buildServerConfigs (oauthTok : String → String → Option String)
    (dec : String → String → String) (kv : AuthStore)
    (userId : String) (encryptionKey : Option String)
    (globalServers : Registry) : List (String × MCPServerConfig) :=
  globalServers.map (fun p =>
    let serverName := p.1
    let apiKey : Option String :=
      match encryptionKey with
      | some ek =>
          let viaOAuth :=
            if OAUTH_SERVICES.contains (jsToLower serverName) then
              oauthTok userId serverName
            else
              none
          match viaOAuth with
          | some t => some t
          | none => findUserApiKey dec kv userId serverName ek
      | none => none
    let authHeader := apiKey.map (fun k =>
      if jsToLower serverName = "sentry" then "Token " ++ k else "Bearer " ++ k)
    (serverName, MCPServerConfig.mk p.2 authHeader))

/-- Embedding of `McpServerHub.listAvailTools` from `src/mcp.ts` /
`src/utils/mcp.ts`. The second component counts how many `MCPClient`
instances were constructed. With an empty registry the function returns
immediately; otherwise it builds the descriptors, constructs one client,
asks the `getTools` oracle for the aggregated catalog and returns its
keys, re-raising the oracle's failure after the (always attempted)
disconnect. -/
def listAvailTools (oauthTok : String → String → Option String)
    (dec : String → String → String) (kv : AuthStore)
    (userId : String) (encryptionKey : Option String)
    (globalServers : Registry)
    (getTools : List (String × MCPServerConfig) → Except String (List (String × String))) :
    Except String (List String) × Nat :=
  if globalServers.length = 0 then
    (.ok [], 0)
  else
    let servers := buildServerConfigs oauthTok dec kv userId encryptionKey globalServers
    match getTools servers with
    | .ok tools => (.ok (tools.map (·.1)), 1)
    | .error e => (.error e, 1)

/-- One entry of the accessible-servers view. -/
structure ServerAccessView where
  name : String
  url : String
  hasAuth : Bool
  deriving DecidableEq

/-- Embedding of `getAccessibleServersForUser` from `src/utils/auth.ts`
(also `McpServerHub.getAccessibleServersForUser` in `src/mcp.ts`): walk
the registry; with an encryption key, a server has auth when an OAuth
token resolves (OAuth-capable services first) or an API key is found;
without an encryption key every server is assumed to need no auth; a
server is emitted unless `requireAuth` is set and it has no auth. -/
def getAccessibleServersForUser (oauthTok : String → String → Option String)
    (dec : String → String → String) (kv : AuthStore)
    (userId : String) (encryptionKey : Option String)
    (globalServers : Registry) (requireAuth : Bool) : List ServerAccessView :=
  List.foldl (fun acc p =>
    let serverName := p.1
    let hasAuth : Bool :=
      match encryptionKey with
      | some ek =>
          let viaOAuth :=
            if OAUTH_SERVICES.contains (jsToLower serverName) then
              (oauthTok userId serverName).isSome
            else
              false
          if viaOAuth then true
          else (findUserApiKey dec kv userId serverName ek).isSome
      | none => true
    if !requireAuth || hasAuth then
      acc ++ [ServerAccessView.mk serverName p.2 hasAuth]
    else
      acc) [] globalServers

/-! ## Conversation context cache (`src/utils/storage.ts`) -/

/-- One conversation entry. -/
structure ConvMessage where
  role : String
  content : String
  deriving DecidableEq

/-- The JSON document stored under `conversation:{threadId}`. -/
structure StoredConversation where
  messages : List ConvMessage
  lastUpdated : Nat
  messageCount : Nat
  deriving DecidableEq

/-- The `conversation:` keyspace. -/
abbrev ConvStore := List (String × StoredConversation)

/-- Embedding of `saveConversationHistory`: writes the document with a
fresh `lastUpdated` stamp and the message count. -/
def saveConversationHistory (threadId : String) (messages : List ConvMessage)
    (now : Nat) (store : ConvStore) : ConvStore :=
  jsSet store threadId (StoredConversation.mk messages now messages.length)

/-- Embedding of `loadConversationHistory`: the stored messages, or the
empty list when nothing (or nothing parseable) is stored. -/
def loadConversationHistory (threadId : String) (store : ConvStore) :
    List ConvMessage :=
  match jsGet store threadId with
  | some doc => doc.messages
  | none => []

/-- Embedding of `addMessageToHistory`: load, push, truncate to the last
20 entries (`splice(0, length - 20)` drops from the front), save. -/
def addMessageToHistory (threadId role content : String) (now : Nat)
    (store : ConvStore) : ConvStore :=
  let messages := loadConversationHistory threadId store ++ [ConvMessage.mk role content]
  let messages :=
    if messages.length > 20 then messages.drop (messages.length - 20) else messages
  saveConversationHistory threadId messages now store

/-! ## OAuth flow controller (`src/oauth.js`, `app.js`) -/

/-- Static provider configuration from `configs/oauth.ts`. -/
structure OAuthConfig where
  clientId : String
  redirectUri : String
  authUrl : String
  tokenUrl : String
  scope : String
  serverUrl : Option String
  deriving DecidableEq

/-- Embedding of `OAUTH_CONFIGS` from `configs/oauth.ts`: the two
configured providers (client ids/redirect URIs fall back to their
`MISSING_*` placeholders when the environment omits them). -/
def OAUTH_CONFIGS (service : String) : Option OAuthConfig :=
  if service = "sentry" then
    some (OAuthConfig.mk "MISSING_SENTRY_CLIENT_ID" "MISSING_SENTRY_REDIRECT_URI"
      "https://sentry.io/oauth/authorize/" "https://sentry.io/oauth/token/"
      "project:read event:read" (some "https://mcp.sentry.dev/mcp"))
  else if service = "github" then
    some (OAuthConfig.mk "MISSING_GITHUB_CLIENT_ID" "MISSING_GITHUB_REDIRECT_URI"
      "https://github.com/login/oauth/authorize"
      "https://github.com/login/oauth/access_token"
      "repo read:user" (some "https://api.githubcopilot.com/mcp/"))
  else
    none

/-- Payload stored under `oauth:state:{state}`. -/
structure OAuthStateData where
  userId : String
  service : String
  timestamp : Nat
  deriving DecidableEq

/-- Token blob stored under `oauth:token:{userId}:{service}`: the
provider's token-response body together with the `issued_at` stamp the
callback adds before encrypting and persisting it (encryption of the
blob is kept abstract; the claims about the callback concern only which
entries exist). -/
structure StoredToken where
  body : String
  issued_at : Nat
  deriving DecidableEq

/-- The slices of the KV store the OAuth callback touches. -/
structure Store where
  oauthStates : List (String × OAuthStateData)
  oauthTokens : List ((String × String) × StoredToken)
  servers : Registry
  deriving DecidableEq

/-- Embedding of `handleOAuthCallback` from `app.js`. Query parameters
are `Option String` (absent vs present; JS truthiness makes the empty
string behave like absence). `tokenResp` is the token-endpoint fetch
result: `(ok, body)`. Returns the HTTP status and the store after the
call. A non-ok exchange throws inside the `try`, so the catch answers
500 with the store untouched; on success the token is stored, the
service's server is registered via `saveServer`, and only then is the
flow state deleted. -/
def handleOAuthCallback (code state error : Option String)
    (tokenResp : Bool × String) (now : Nat) (s : Store) : Nat × Store :=
  if error.getD "" ≠ "" then
    (400, s)
  else if code.getD "" = "" ∨ state.getD "" = "" then
    (400, s)
  else
    match jsGet s.oauthStates (state.getD "") with
    | none => (400, s)
    | some sd =>
        match OAUTH_CONFIGS sd.service with
        | none => (500, s)
        | some config =>
            if tokenResp.1 = false then
              (500, s)
            else
              let tokens1 := jsSet s.oauthTokens (sd.userId, sd.service)
                (StoredToken.mk tokenResp.2 now)
              let serverUrl := config.serverUrl.getD
                ("https://mcp." ++ sd.service ++ ".dev/mcp")
              let servers1 := saveServer sd.service serverUrl s.servers
              let states1 := jsDelete s.oauthStates (state.getD "")
              (200, Store.mk states1 tokens1 servers1)

/-- Decrypted-and-parsed token record, with JS truthiness encoded as
`0`/`""` for absent numeric/string fields. -/
structure TokenData where
  issued_at : Nat
  expires_in : Nat
  expires_at : Nat
  access_token : String
  accessToken : String
  token : String
  refresh_token : String
  deriving DecidableEq

/-- Outcome of token resolution: an access token, a delegation to the
refresh path, or absence. -/
inductive TokenResult where
  | tok (s : String)
  | refreshCalled
  | absent
  deriving DecidableEq

/-- Access-token extraction tolerating the three provider field names
(`access_token`, `accessToken`, `token`); a falsy result is absence. -/
def extractAccessToken (td : TokenData) : TokenResult :=
  let a :=
    if td.access_token ≠ "" then td.access_token
    else if td.accessToken ≠ "" then td.accessToken
    else td.token
  if a = "" then .absent else .tok a

/-- The `oauth:token:` keyspace of encrypted blobs. -/
abbrev TokenStore := List ((String × String) × String)

/-- Embedding of `getOAuthToken` from `src/oauth.js` (lines 113-143):
fetch the encrypted blob, decrypt and parse it (failures are caught and
yield absence), then either hand off to the refresh path when the
record is expired (`issued_at + expires_in*1000` preferred, falling back
to `expires_at*1000`) or extract the access token. The refresh path is
abstracted as the `refreshCalled` outcome; the store is returned so that
the non-refresh paths are visibly free of writes. -/
def getOAuthToken (dec : String → String) (parse : String → Option TokenData)
    (tokens : TokenStore) (userId service : String) (now : Nat) :
    TokenResult × TokenStore :=
  match jsGet tokens (userId, service) with
  | none => (.absent, tokens)
  | some enc =>
      match parse (dec enc) with
      | none => (.absent, tokens)
      | some td =>
          if td.issued_at ≠ 0 ∧ td.expires_in ≠ 0 then
            if now ≥ td.issued_at + td.expires_in * 1000 then
              (.refreshCalled, tokens)
            else
              (extractAccessToken td, tokens)
          else if td.expires_at ≠ 0 ∧ now ≥ td.expires_at * 1000 then
            (.refreshCalled, tokens)
          else
            (extractAccessToken td, tokens)

/-! ## Helper lemmas -/

lemma keystream_length (pass salt : Bytes) (n : Nat) :
    (keystream pass salt n).length = n := by
  simp [keystream]

lemma zipWith_xor_cancel :
    ∀ (t ks : Bytes), t.length ≤ ks.length →
      (t.zipWith Nat.xor ks).zipWith Nat.xor ks = t := by
  intro t
  induction t with
  | nil => intro ks _; simp
  | cons a t ih =>
      intro ks hks
      cases ks with
      | nil => simp at hks
      | cons k ks =>
          have h' : t.length ≤ ks.length := by
            simp only [List.length_cons] at hks; omega
          simp only [List.zipWith_cons_cons, List.cons.injEq]
          refine ⟨?_, ih ks h'⟩
          show a ^^^ k ^^^ k = a
          rw [Nat.xor_assoc, Nat.xor_self, Nat.xor_zero]

lemma decryptRaw_encryptRaw (text pass salt : Bytes) (hs : salt.length = 8) :
    decryptRaw (encryptRaw text pass salt) pass = text := by
  have htake : (encryptRaw text pass salt).take 8 = salt := by
    rw [encryptRaw, ← hs, List.take_left]
  have hdrop : (encryptRaw text pass salt).drop 8 =
      text.zipWith Nat.xor (keystream pass salt text.length) := by
    rw [encryptRaw, ← hs, List.drop_left]
  have hlen : (text.zipWith Nat.xor (keystream pass salt text.length)).length
      = text.length := by
    simp [keystream_length]
  simp only [decryptRaw, htake, hdrop, hlen]
  exact zipWith_xor_cancel text _ (by simp [keystream_length])

lemma encryptRaw_take (text pass salt : Bytes) (hs : salt.length = 8) :
    (encryptRaw text pass salt).take 8 = salt := by
  rw [encryptRaw, ← hs, List.take_left]

lemma jsGet_jsSet_self {κ α : Type} [DecidableEq κ]
    (r : List (κ × α)) (k : κ) (v : α) : jsGet (jsSet r k v) k = some v := by
  induction r with
  | nil => simp [jsSet, jsGet]
  | cons p r ih =>
      by_cases h : p.1 = k
      · simp [jsSet, h, jsGet]
      · simp [jsSet, h, jsGet, ih]

lemma jsSet_idem {κ α : Type} [DecidableEq κ]
    (r : List (κ × α)) (k : κ) (v : α) :
    jsSet (jsSet r k v) k v = jsSet r k v := by
  induction r with
  | nil => simp [jsSet]
  | cons p r ih =>
      by_cases h : p.1 = k
      · simp [jsSet, h]
      · simp [jsSet, h, ih]

lemma jsGet_jsDelete_self {κ α : Type} [DecidableEq κ]
    (r : List (κ × α)) (k : κ) : jsGet (jsDelete r k) k = none := by
  induction r with
  | nil => simp [jsDelete, jsGet]
  | cons p r ih =>
      by_cases h : p.1 = k
      · simpa [jsDelete, List.filter_cons, h] using ih
      · simpa [jsDelete, List.filter_cons, h, jsGet] using ih

lemma jsDelete_idem {κ α : Type} [DecidableEq κ]
    (r : List (κ × α)) (k : κ) :
    jsDelete (jsDelete r k) k = jsDelete r k := by
  induction r with
  | nil => simp [jsDelete]
  | cons p r ih =>
      by_cases h : p.1 = k
      · simp [jsDelete, List.filter_cons, h]
      · simp [jsDelete, List.filter_cons, h]

lemma load_save (t : String) (msgs : List ConvMessage) (now : Nat)
    (store : ConvStore) :
    loadConversationHistory t (saveConversationHistory t msgs now store) = msgs := by
  simp [loadConversationHistory, saveConversationHistory, jsGet_jsSet_self]

lemma foldl_append_map {α β : Type} (f : α → β) :
    ∀ (l : List α) (acc : List β),
      List.foldl (fun acc x => acc ++ [f x]) acc l = acc ++ l.map f := by
  intro l
  induction l with
  | nil => intro acc; simp
  | cons x l ih => intro acc; simp [List.foldl_cons, ih]

/-! ## Claim theorems -/

/-- C1: for every plaintext and every non-empty passphrase, decrypting
the result of encrypting with the same passphrase returns exactly the
plaintext (for any 8-byte salt the encryption call draws). -/
theorem decrypt_encrypt_roundtrip (x p salt c : Bytes) (hp : p ≠ [])
    (hs : salt.length = 8)
    (henc : encrypt x (Env.mk p) salt = Except.ok c) :
    decrypt c (Env.mk p) = Except.ok x := by
  have hc : c = encryptRaw x p salt := by
    simp [encrypt, hp] at henc
    exact henc.symm
  rw [hc]
  simp [decrypt, hp, decryptRaw_encryptRaw x p salt hs]

/-- Witness for C1 at a concrete plaintext, passphrase and salt. -/
theorem decrypt_encrypt_roundtrip_witness :
    decrypt (encryptRaw [1, 2, 3] [7] [0, 1, 2, 3, 4, 5, 6, 7]) (Env.mk [7])
      = Except.ok [1, 2, 3] :=
  decrypt_encrypt_roundtrip [1, 2, 3] [7] [0, 1, 2, 3, 4, 5, 6, 7]
    (encryptRaw [1, 2, 3] [7] [0, 1, 2, 3, 4, 5, 6, 7])
    (by decide) (by decide) rfl

/-- C9: encryption is not deterministic across calls: two invocations of
`encrypt` on the same plaintext and passphrase with distinct per-call
salts yield distinct ciphertexts. -/
theorem encrypt_not_deterministic (x p s1 s2 c1 c2 : Bytes) (hp : p ≠ [])
    (h1 : s1.length = 8) (h2 : s2.length = 8) (hne : s1 ≠ s2)
    (e1 : encrypt x (Env.mk p) s1 = Except.ok c1)
    (e2 : encrypt x (Env.mk p) s2 = Except.ok c2) : c1 ≠ c2 := by
  have hc1 : c1 = encryptRaw x p s1 := by
    simp [encrypt, hp] at e1
    exact e1.symm
  have hc2 : c2 = encryptRaw x p s2 := by
    simp [encrypt, hp] at e2
    exact e2.symm
  intro h
  apply hne
  have := congrArg (List.take 8) h
  rwa [hc1, hc2, encryptRaw_take x p s1 h1, encryptRaw_take x p s2 h2] at this

/-- Witness for C9 at a concrete plaintext, passphrase and salt pair. -/
theorem encrypt_not_deterministic_witness :
    encryptRaw [1] [7] [0, 0, 0, 0, 0, 0, 0, 0]
      ≠ encryptRaw [1] [7] [9, 0, 0, 0, 0, 0, 0, 0] :=
  encrypt_not_deterministic [1] [7] [0, 0, 0, 0, 0, 0, 0, 0]
    [9, 0, 0, 0, 0, 0, 0, 0] _ _ (by decide) (by decide) (by decide) (by decide)
    rfl rfl

/-- C2 counterexample: an API key stored under server name "GitHub" is
not resolved when the lookup is made with the queried name "github" —
the dual lookup tries the name as given and its lowercased form, and
both of those are "github", so the "GitHub" record is never consulted;
the built descriptor carries no authorization header. -/
theorem findUserApiKey_github_counterexample :
    findUserApiKey (fun s _ => s)
      [(("U1", "GitHub"), StoredAuth.legacy "ENC")] "U1" "github" "pass"
      = none ∧
    buildServerConfigs (fun _ _ => none) (fun s _ => s)
      [(("U1", "GitHub"), StoredAuth.legacy "ENC")] "U1" (some "pass")
      [("github", "https://g.test/mcp")]
      = [("github", MCPServerConfig.mk "https://g.test/mcp" none)] := by
  constructor <;> rfl

/-- C2 amended: credential resolution tries the server name as given and
then its lowercased form, so a key stored under the lowercased server
name is resolved for any casing of the queried name (the reverse
direction, key stored under a non-lowercase casing and queried in
lowercase, does not resolve — see the counterexample). -/
theorem findUserApiKey_lowercase_fallback (dec : String → String → String)
    (kv : AuthStore) (u name ek enc : String)
    (h1 : getUserApiKey kv u name = none)
    (h2 : getUserApiKey kv u (jsToLower name) = some enc)
    (henc : enc ≠ "") :
    findUserApiKey dec kv u name ek = some (dec enc ek) := by
  simp [findUserApiKey, List.findSome?_cons, h1, h2, henc]

/-- Witness for C2's amended statement: a key stored under "github"
resolves when queried as "GitHub". -/
theorem findUserApiKey_lowercase_fallback_witness :
    findUserApiKey (fun s _ => s)
      [(("U1", "github"), StoredAuth.legacy "E")] "U1" "GitHub" "pass"
      = some "E" :=
  findUserApiKey_lowercase_fallback (fun s _ => s)
    [(("U1", "github"), StoredAuth.legacy "E")] "U1" "GitHub" "pass" "E"
    (by decide) (by decide) (by decide)

/-- C3: an OAuth flow state is consumable exactly once. A first callback
that finds the state, a configured service and a successful exchange
answers 200 and deletes the state; a second callback replaying the same
state value answers 400 (invalid-or-expired state) and leaves the store
— in particular the token map — untouched. -/
theorem oauth_state_single_use
    (c c2 st body : String) (resp2 : Bool × String)
    (now now2 : Nat) (s : Store) (sd : OAuthStateData) (cfg : OAuthConfig)
    (hc : c ≠ "") (hc2 : c2 ≠ "") (hst : st ≠ "")
    (hlook : jsGet s.oauthStates st = some sd)
    (hcfg : OAUTH_CONFIGS sd.service = some cfg) :
    (handleOAuthCallback (some c) (some st) none (true, body) now s).1 = 200 ∧
    jsGet (handleOAuthCallback (some c) (some st) none (true, body) now s).2.oauthStates
      st = none ∧
    handleOAuthCallback (some c2) (some st) none resp2 now2
        (handleOAuthCallback (some c) (some st) none (true, body) now s).2
      = (400, (handleOAuthCallback (some c) (some st) none (true, body) now s).2) := by
  have h1 : handleOAuthCallback (some c) (some st) none (true, body) now s =
      (200, Store.mk (jsDelete s.oauthStates st)
        (jsSet s.oauthTokens (sd.userId, sd.service) (StoredToken.mk body now))
        (saveServer sd.service
          (cfg.serverUrl.getD ("https://mcp." ++ sd.service ++ ".dev/mcp"))
          s.servers)) := by
    simp [handleOAuthCallback, hc, hst, hlook, hcfg]
  refine ⟨by rw [h1], ?_, ?_⟩
  · rw [h1]
    exact jsGet_jsDelete_self s.oauthStates st
  · rw [h1]
    simp [handleOAuthCallback, hc2, hst, jsGet_jsDelete_self]

/-- Witness for C3 at a concrete store, state and exchange response. -/
theorem oauth_state_single_use_witness :
    (handleOAuthCallback (some "c") (some "st1") none (true, "body") 1
        (Store.mk [("st1", OAuthStateData.mk "U1" "github" 5)] [] [])).1 = 200 ∧
    jsGet (handleOAuthCallback (some "c") (some "st1") none (true, "body") 1
        (Store.mk [("st1", OAuthStateData.mk "U1" "github" 5)] [] [])).2.oauthStates
      "st1" = none ∧
    handleOAuthCallback (some "c2") (some "st1") none (true, "r2") 2
        (handleOAuthCallback (some "c") (some "st1") none (true, "body") 1
          (Store.mk [("st1", OAuthStateData.mk "U1" "github" 5)] [] [])).2
      = (400, (handleOAuthCallback (some "c") (some "st1") none (true, "body") 1
          (Store.mk [("st1", OAuthStateData.mk "U1" "github" 5)] [] [])).2) :=
  oauth_state_single_use "c" "c2" "st1" "body" (true, "r2") 1 2
    (Store.mk [("st1", OAuthStateData.mk "U1" "github" 5)] [] [])
    (OAuthStateData.mk "U1" "github" 5)
    (OAuthConfig.mk "MISSING_GITHUB_CLIENT_ID" "MISSING_GITHUB_REDIRECT_URI"
      "https://github.com/login/oauth/authorize"
      "https://github.com/login/oauth/access_token"
      "repo read:user" (some "https://api.githubcopilot.com/mcp/"))
    (by decide) (by decide) (by decide) rfl rfl

/-- C4 counterexample: on a failed token exchange the callback answers
500, but the flow state has not been consumed — it is still present in
the store afterwards, contradicting the claim that the state has
already been deleted at that point. -/
theorem oauth_exchange_failure_counterexample :
    (handleOAuthCallback (some "c") (some "st1") none (false, "boom") 99
        (Store.mk [("st1", OAuthStateData.mk "U1" "github" 5)] [] [])).1 = 500 ∧
    jsGet (handleOAuthCallback (some "c") (some "st1") none (false, "boom") 99
        (Store.mk [("st1", OAuthStateData.mk "U1" "github" 5)] [] [])).2.oauthStates
      "st1" = some (OAuthStateData.mk "U1" "github" 5) := by
  constructor <;> rfl

/-- C4 amended: when the token exchange gets a non-success HTTP
response, the callback fails with HTTP 500, stores no token and
registers no server; the flow state has not been consumed — the store
is returned exactly as it was, the state entry still present. -/
theorem oauth_exchange_failure (c st b : String) (now : Nat) (s : Store)
    (sd : OAuthStateData) (cfg : OAuthConfig)
    (hc : c ≠ "") (hst : st ≠ "")
    (hlook : jsGet s.oauthStates st = some sd)
    (hcfg : OAUTH_CONFIGS sd.service = some cfg) :
    handleOAuthCallback (some c) (some st) none (false, b) now s = (500, s) ∧
    jsGet (handleOAuthCallback (some c) (some st) none (false, b) now s).2.oauthStates
      st = some sd := by
  have h1 : handleOAuthCallback (some c) (some st) none (false, b) now s = (500, s) := by
    simp [handleOAuthCallback, hc, hst, hlook, hcfg]
  exact ⟨h1, by rw [h1]; exact hlook⟩

/-- Witness for C4's amended statement at a concrete store and state. -/
theorem oauth_exchange_failure_witness :
    handleOAuthCallback (some "cc") (some "st2") none (false, "no") 7
        (Store.mk [("st2", OAuthStateData.mk "U2" "sentry" 3)] [] [])
      = (500, Store.mk [("st2", OAuthStateData.mk "U2" "sentry" 3)] [] []) ∧
    jsGet (handleOAuthCallback (some "cc") (some "st2") none (false, "no") 7
        (Store.mk [("st2", OAuthStateData.mk "U2" "sentry" 3)] [] [])).2.oauthStates
      "st2" = some (OAuthStateData.mk "U2" "sentry" 3) :=
  oauth_exchange_failure "cc" "st2" "no" 7
    (Store.mk [("st2", OAuthStateData.mk "U2" "sentry" 3)] [] [])
    (OAuthStateData.mk "U2" "sentry" 3)
    (OAuthConfig.mk "MISSING_SENTRY_CLIENT_ID" "MISSING_SENTRY_REDIRECT_URI"
      "https://sentry.io/oauth/authorize/" "https://sentry.io/oauth/token/"
      "project:read event:read" (some "https://mcp.sentry.dev/mcp"))
    (by decide) (by decide) rfl rfl

/-- C5: for a stored token record with `issued_at = T` and
`expires_in = 3600`, resolution at any time strictly before
`T + 3600s` (in particular `T + 3599s`) returns the stored access token
with the token store unmodified, and resolution at any time at or after
`T + 3600s` (in particular `T + 3601s`) invokes the refresh operation
instead of returning the stored token. -/
theorem resolveAccessToken_expiry (dec : String → String)
    (parse : String → Option TokenData) (tokens : TokenStore)
    (u sv enc a rt : String) (T ea : Nat)
    (hT : T ≠ 0) (ha : a ≠ "")
    (hstore : jsGet tokens (u, sv) = some enc)
    (hparse : parse (dec enc) = some (TokenData.mk T 3600 ea a "" "" rt)) :
    (∀ now : Nat, now < T + 3600 * 1000 →
      getOAuthToken dec parse tokens u sv now = (TokenResult.tok a, tokens)) ∧
    (∀ now : Nat, now ≥ T + 3600 * 1000 →
      getOAuthToken dec parse tokens u sv now
        = (TokenResult.refreshCalled, tokens)) := by
  have h1 : T ≠ 0 ∧ (3600 : Nat) ≠ 0 := ⟨hT, by omega⟩
  constructor
  · intro now hnow
    have hlt : ¬ (now ≥ T + 3600 * 1000) := by omega
    unfold getOAuthToken
    rw [hstore]
    dsimp only
    rw [hparse]
    dsimp only
    rw [if_pos h1, if_neg hlt]
    unfold extractAccessToken
    dsimp only
    rw [if_pos ha, if_neg ha]
  · intro now hge
    unfold getOAuthToken
    rw [hstore]
    dsimp only
    rw [hparse]
    dsimp only
    rw [if_pos h1, if_pos hge]

/-- Witness for C5 at a concrete token record issued at T = 1,
exercised at the instant just before expiry and at the expiry boundary
itself. -/
theorem resolveAccessToken_expiry_witness :
    getOAuthToken (fun s => s)
      (fun _ => some (TokenData.mk 1 3600 0 "AT" "" "" "RT"))
      [(("U", "gh"), "blob")] "U" "gh" (1 + 3599 * 1000)
      = (TokenResult.tok "AT", [(("U", "gh"), "blob")]) ∧
    getOAuthToken (fun s => s)
      (fun _ => some (TokenData.mk 1 3600 0 "AT" "" "" "RT"))
      [(("U", "gh"), "blob")] "U" "gh" (1 + 3600 * 1000)
      = (TokenResult.refreshCalled, [(("U", "gh"), "blob")]) :=
  ⟨(resolveAccessToken_expiry (fun s => s)
      (fun _ => some (TokenData.mk 1 3600 0 "AT" "" "" "RT"))
      [(("U", "gh"), "blob")] "U" "gh" "blob" "AT" "RT" 1 0
      (by decide) (by decide) rfl rfl).1 (1 + 3599 * 1000) (by omega),
   (resolveAccessToken_expiry (fun s => s)
      (fun _ => some (TokenData.mk 1 3600 0 "AT" "" "" "RT"))
      [(("U", "gh"), "blob")] "U" "gh" "blob" "AT" "RT" 1 0
      (by decide) (by decide) rfl rfl).2 (1 + 3600 * 1000) (by omega)⟩

/-- C6: with an empty server registry, listing tools returns the empty
list for every user, passphrase and tool-catalog oracle, and constructs
zero tool-protocol clients. -/
theorem listTools_empty_registry (oauthTok : String → String → Option String)
    (dec : String → String → String) (kv : AuthStore) (userId : String)
    (encryptionKey : Option String)
    (getTools : List (String × MCPServerConfig) → Except String (List (String × String))) :
    listAvailTools oauthTok dec kv userId encryptionKey [] getTools
      = (Except.ok [], 0) := rfl

/-- C7 counterexample: the storage-level upsert `saveServer` lowercases
the server name but stores the URL exactly as given, contradicting the
claim that the stored URL is lowercased. -/
theorem saveServer_url_counterexample :
    jsGet (saveServer "Demo" "HTTPS://X.TEST/MCP" []) "demo"
      = some "HTTPS://X.TEST/MCP" ∧
    jsGet (saveServer "Demo" "HTTPS://X.TEST/MCP" []) "demo"
      ≠ some "https://x.test/mcp" := by
  exact ⟨rfl, by decide⟩

/-- C7 amended: the storage-level upsert (`saveServer`) stores the entry
under the lowercased server name with the URL as given, while the
API-level upsert (`ServerConfigManager.addServer`) lowercases both the
name and the URL; `removeServer` deletes by lowercased name at the
storage level and by the name as given at the API level; every one of
these operations is idempotent. -/
theorem registry_ops (r : Registry) (n u : String) :
    jsGet (saveServer n u r) (jsToLower n) = some u ∧
    jsGet (ServerConfigManager.addServer n u r) (jsToLower n) = some (jsToLower u) ∧
    saveServer n u (saveServer n u r) = saveServer n u r ∧
    removeServer n (removeServer n r) = removeServer n r ∧
    ServerConfigManager.addServer n u (ServerConfigManager.addServer n u r)
      = ServerConfigManager.addServer n u r ∧
    ServerConfigManager.removeServer n (ServerConfigManager.removeServer n r)
      = ServerConfigManager.removeServer n r :=
  ⟨jsGet_jsSet_self r (jsToLower n) u,
   jsGet_jsSet_self r (jsToLower n) (jsToLower u),
   jsSet_idem r (jsToLower n) u,
   jsDelete_idem r (jsToLower n),
   jsSet_idem r (jsToLower n) (jsToLower u),
   jsDelete_idem r n⟩

/-- C8: appending 25 messages one at a time to an initially empty
conversation thread leaves exactly the last 20, in their original
relative order; and after every append the stored history has at most
20 entries. -/
theorem conversation_window :
    loadConversationHistory "t"
      (List.foldl (fun st i => addMessageToHistory "t" "user" (toString i) i st)
        [] (List.range 25))
      = ((List.range 25).drop 5).map (fun i => ConvMessage.mk "user" (toString i)) ∧
    ∀ (store : ConvStore) (t r c : String) (now : Nat),
      (loadConversationHistory t (addMessageToHistory t r c now store)).length ≤ 20 := by
  constructor
  · rfl
  · intro store t r c now
    simp only [addMessageToHistory, load_save]
    by_cases h :
        (loadConversationHistory t store ++ [ConvMessage.mk r c]).length > 20
    · simp only [if_pos h, List.length_drop]
      omega
    · simp only [if_neg h]
      omega

/-- C10: when the accessible-servers view is queried with no encryption
key, every registered server is reported with `hasAuth = true` and is
included in the result even when `requireAuth = true`, regardless of any
stored credential. -/
theorem accessibleServers_no_passphrase (oauthTok : String → String → Option String)
    (dec : String → String → String) (kv : AuthStore) (userId : String)
    (globalServers : Registry) (requireAuth : Bool) :
    getAccessibleServersForUser oauthTok dec kv userId none globalServers requireAuth
      = globalServers.map (fun p => ServerAccessView.mk p.1 p.2 true) := by
  unfold getAccessibleServersForUser
  have hstep : (fun (acc : List ServerAccessView) (p : String × String) =>
      let serverName := p.1
      let hasAuth : Bool :=
        match (none : Option String) with
        | some ek =>
            let viaOAuth :=
              if OAUTH_SERVICES.contains (jsToLower serverName) then
                (oauthTok userId serverName).isSome
              else
                false
            if viaOAuth then true
            else (findUserApiKey dec kv userId serverName ek).isSome
        | none => true
      if !requireAuth || hasAuth then
        acc ++ [ServerAccessView.mk serverName p.2 hasAuth]
      else
        acc)
      = fun acc p => acc ++ [ServerAccessView.mk p.1 p.2 true] := by
    funext acc p
    simp
  rw [hstep, foldl_append_map]
  simp

end Snack
